import Mathlib

/-!
# Verification of the sandbox Execution Session Controller and Git Synchronization Manager

A shallow embedding of `packages/sandbox/sandbox/runner.py` (`ClaudeRunner`) and
`packages/sandbox/sandbox/git_ops.py` (`GitOperations`), together with proofs of the
behavioural properties stated in the specification.

Modelling conventions:
* Python dict payloads with a fixed key vocabulary become structures of `Option` fields;
  `dict.get(k)` is the field itself, `dict.get(k, d)` is `Option.getD`.
* Emissions to the control plane (`EventEmitter.emit_*`) are collected into an ordered
  trace of `OutboundEvent`s; the wire-level unique id and timestamp generated per
  emission in `events.py` carry no information and are not modelled.
* Subprocess and network outcomes (exit codes, captured stdout/stderr, exceptions) are
  exogenous inputs to the model, per the spec's boundary: the git CLI is an external
  command with documented exit-code semantics.
* The stop flag set concurrently by `stop()` is modelled by the index of the first
  per-event check at which the flag is visible (`stopAfter`); once visible it stays set.
-/

namespace SandboxModel

/-- Payload of an `OpenCodeEvent` (`event.data` in `runner.py`): a string-keyed dict
with the key vocabulary actually read by the runner. Absent keys are `none`. -/
structure EventData where
  content : Option String := none
  tool : Option String := none
  args : Option (List (String × String)) := none
  status : Option String := none
  output : Option String := none
  error : Option String := none
  deriving DecidableEq, Repr

/-- An event from the OpenCode stream: a `type` tag and a data payload. -/
structure OpenCodeEvent where
  type : String
  data : EventData
  deriving DecidableEq, Repr

/-- One emission to the control plane, at the granularity of the `EventEmitter`
method calls made by the runner and git manager. The trailing `Option String` on
session-scoped events is the correlation id (`message_id`); `emit_git_sync` never
passes one. -/
inductive OutboundEvent where
  | token (content : String) (mid : Option String)
  | tool_call (tool : String) (input : List (String × String)) (mid : Option String)
  | tool_result (tool : String) (result : Option String) (error : Option String)
      (mid : Option String)
  | error (msg : String) (mid : Option String)
  | execution_complete (success : Bool) (summary : Option String) (mid : Option String)
  | git_sync (status : String) (details : List (String × String))
  deriving DecidableEq, Repr

/-- The dict returned by `run_prompt_async`: either
`{"success": True, "output": ..., "tool_calls": ...}` or
`{"success": False, "error": ...}` (the error value may be `None`, since
`event.data.get("error")` has no default on the result path). -/
inductive RunResult where
  | ok (output : String) (tool_calls : List EventData)
  | err (msg : Option String)
  deriving DecidableEq, Repr

/-- How the event loop of `run_prompt_async` finishes: a Python `return` with a
result, or an exception raised while pulling the next event. -/
inductive LoopExit where
  | returned (r : RunResult)
  | raised (msg : String)
  deriving DecidableEq, Repr

/-- Observable outcome of the event loop: how it exited, the emissions it made
(in order), and whether `client.stop_session()` was called on the stop path. -/
structure LoopOut where
  exit : LoopExit
  trace : List OutboundEvent
  clientStopIssued : Bool
  deriving DecidableEq, Repr

/-- Model of `ClaudeRunner._process_event`: translate one stream event into zero or more
control-plane emissions (the optional `on_event` callback has no effect on the
runner's state or emissions and is not modelled). -/
def processEvent (mid : Option String) (e : OpenCodeEvent) : List OutboundEvent :=
  if e.type = "token" then
    let content := e.data.content.getD ""
    if content ≠ "" then [.token content mid] else []
  else if e.type = "tool_call" then
    let tool := e.data.tool.getD "unknown"
    let args := e.data.args.getD []
    let status := e.data.status.getD ""
    let output := e.data.output.getD ""
    if status = "pending" ∨ status = "running" then [.tool_call tool args mid]
    else if status = "completed" then [.tool_result tool (some output) none mid]
    else if status = "error" then [.tool_result tool none (some output) mid]
    else []
  else if e.type = "error" then
    [.error (e.data.error.getD "Unknown error") mid]
  else []

/-- The `async for` loop of `run_prompt_async` over the remaining events.

`iterExn`: if `some m`, the stream iterator raises an exception with message `m`
when the next event is pulled after the listed events are exhausted.
`stopIn`: number of per-event stop-flag checks that still happen before the
concurrently set stop flag becomes visible (`none` = never during this run).
`finalText`, `toolCalls`: the accumulators `final_text` and `tool_calls`. -/
def runEvents (mid iterExn : Option String) :
    List OpenCodeEvent → Option Nat → String → List EventData → LoopOut
  | [], _, finalText, toolCalls =>
    match iterExn with
    | some m => ⟨.raised m, [], false⟩
    | none =>
      ⟨.returned (.ok finalText toolCalls),
        [.execution_complete true (some "Prompt completed") mid], false⟩
  | e :: rest, stopIn, finalText, toolCalls =>
    match stopIn with
    | some 0 =>
      ⟨.returned (.err (some "Stopped by user")),
        [.error "Execution stopped by user" mid], true⟩
    | stopIn' =>
      let emitted := processEvent mid e
      if e.type = "error" then
        ⟨.returned (.err e.data.error),
          emitted ++ [.execution_complete false e.data.error mid], false⟩
      else
        let finalText' := if e.type = "token" then e.data.content.getD "" else finalText
        let toolCalls' := if e.type = "tool_call" then toolCalls ++ [e.data] else toolCalls
        let out := runEvents mid iterExn rest (stopIn'.map (· - 1)) finalText' toolCalls'
        ⟨out.exit, emitted ++ out.trace, out.clientStopIssued⟩

/-- Models `subprocess.run(cmd, check=True, ...)`: raises `CalledProcessError`
exactly when the command exits non-zero. -/
def subprocessRunCheck (exitCode : Int) : Except String Unit :=
  if exitCode ≠ 0 then .error "CalledProcessError" else .ok ()

/-- Exit codes of the two `git config` invocations made by
`ClaudeRunner._configure_git_identity`. -/
structure GitIdentityEnv where
  nameCfgExit : Int
  emailCfgExit : Int
  deriving DecidableEq, Repr

/-- Model of `ClaudeRunner._configure_git_identity`: skips when name or email is missing or
empty (Python truthiness), and catches `CalledProcessError` from either `git config`
call (logged, not fatal). It returns normally on every input and emits nothing. -/
def configure_git_identity (githubName githubEmail : Option String)
    (env : GitIdentityEnv) : Unit :=
  if githubName.getD "" = "" ∨ githubEmail.getD "" = "" then ()
  else
    match subprocessRunCheck env.nameCfgExit with
    | .error _ => ()
    | .ok () =>
      match subprocessRunCheck env.emailCfgExit with
      | .error _ => ()
      | .ok () => ()

/-- Outcome of establishing and consuming the OpenCode stream (exogenous):
either the connection/stream setup raises, or the stream yields a finite list of
events and then possibly raises on the next pull (`iterExn`). -/
inductive StreamSetup where
  | connectExn (msg : String)
  | ok (events : List OpenCodeEvent) (iterExn : Option String)
  deriving DecidableEq, Repr

/-- Model of `ClaudeRunner.run_prompt_async`: configures the git identity (best-effort,
before the `try` block), then runs the event loop inside `try/except`; any
exception raised in the body is caught and converted to an `error` emission,
a failed `execution_complete` emission and an error result. -/
def run_prompt_async (mid : Option String)
    (author : Option (Option String × Option String)) (gitEnv : GitIdentityEnv)
    (setup : StreamSetup) (stopAfter : Option Nat) :
    RunResult × List OutboundEvent × Bool :=
  let _ := match author with
    | some a => configure_git_identity a.1 a.2 gitEnv
    | none => ()
  match setup with
  | .connectExn m =>
    (.err (some m), [.error m mid, .execution_complete false (some m) mid], false)
  | .ok events iterExn =>
    let out := runEvents mid iterExn events stopAfter "" []
    match out.exit with
    | .returned r => (r, out.trace, out.clientStopIssued)
    | .raised m =>
      (.err (some m),
        out.trace ++ [.error m mid, .execution_complete false (some m) mid],
        out.clientStopIssued)

/-- The per-event translations of a list of events, concatenated in order. -/
def perEventTrace (mid : Option String) : List OpenCodeEvent → List OutboundEvent
  | [] => []
  | e :: rest => processEvent mid e ++ perEventTrace mid rest

/-- The `final_text` accumulator after folding a list of events over start value
`ft`: the content of the last `token` event (each token's content replaces,
never appends). -/
def lastTokenFrom (ft : String) : List OpenCodeEvent → String
  | [] => ft
  | e :: rest =>
    lastTokenFrom (if e.type = "token" then e.data.content.getD "" else ft) rest

/-- The content of the last `token` event of the list (empty if there is none). -/
def lastTokenContent (events : List OpenCodeEvent) : String :=
  lastTokenFrom "" events

/-- The payloads of all `tool_call` events, in order (the `tool_calls` list built
by the run loop). -/
def collectedToolCalls : List OpenCodeEvent → List EventData
  | [] => []
  | e :: rest =>
    if e.type = "tool_call" then e.data :: collectedToolCalls rest
    else collectedToolCalls rest

/-! ## Git Synchronization Manager (`git_ops.py`) -/

/-- Python `a or b` on an optional string `a` and a string fallback `b`:
`a` wins only when present and truthy (non-empty). -/
def pyOrStr (a : Option String) (b : String) : String :=
  match a with
  | some s => if s ≠ "" then s else b
  | none => b

/-- Python `needle in haystack` on character lists: some suffix of the haystack
starts with the needle (an empty needle is contained in everything). -/
def segIn (needle : List Char) : List Char → Bool
  | [] => needle.isEmpty
  | c :: t => needle.isPrefixOf (c :: t) || segIn needle t

/-- Python's substring operator `needle in haystack` on strings. -/
def pyInStr (needle haystack : String) : Bool :=
  segIn needle.data haystack.data

/-- Record `TokenResolution` (`git_ops.py`): resolved token and provenance description. -/
structure TokenResolution where
  token : String
  source : String
  deriving DecidableEq, Repr

/-- Model of `GitOperations.resolve_github_token`. Here `fresh_token` is the token passed with
the command (`None` when absent); `env_token` is the value of the environment
variable under `env_token_key` (`None` when unset). Python truthiness: empty
strings do not win. -/
def resolve_github_token (fresh_token env_token : Option String) : TokenResolution :=
  if fresh_token.getD "" ≠ "" then ⟨fresh_token.getD "", "fresh from command"⟩
  else if env_token.getD "" ≠ "" then ⟨env_token.getD "", "from env"⟩
  else ⟨"", "none"⟩

/-- The dict returned by `push_branch_async`: `success`, and on success the
branch name, on failure an error message. -/
structure PushResult where
  success : Bool
  branch : Option String := none
  error : Option String := none
  deriving DecidableEq, Repr

/-- Exogenous environment of one `push_branch_async` call: whether the workspace
directory exists, the value of `GITHUB_APP_TOKEN` in the environment, and the
outcome of the `git push` subprocess (exception at spawn/communicate, or exit
code plus captured stderr). -/
structure PushEnv where
  workspaceExists : Bool
  envToken : Option String
  spawnExn : Option String
  pushReturncode : Int
  pushStderr : String
  deriving DecidableEq, Repr

/-- Observable outcome of `push_branch_async`: the returned dict, the emissions,
whether a `git push` subprocess was started, and (internal, passed only to the
subprocess) the authenticated URL it was given. -/
structure PushOut where
  result : PushResult
  trace : List OutboundEvent
  pushInvoked : Bool
  pushUrl : Option String
  deriving DecidableEq, Repr

/-- Model of `GitOperations.push_branch_async`. Here `cfgOwner`/`cfgName` are
`config.repo_owner`/`config.repo_name`; `github_token`, `repo_owner`,
`repo_name` are the optional call arguments. Order of checks follows the
source: workspace existence first, then the resolved-token/owner/name guard,
then the force push over an authenticated URL. The captured stderr of a failed
push is deliberately never used. -/
def push_branch_async (cfgOwner cfgName branch_name : String)
    (github_token repo_owner repo_name : Option String) (env : PushEnv) : PushOut :=
  let owner := pyOrStr repo_owner cfgOwner
  let name := pyOrStr repo_name cfgName
  let token := (resolve_github_token github_token env.envToken).token
  if ¬ env.workspaceExists then
    ⟨⟨false, none, some "No repository found"⟩, [], false, none⟩
  else if token = "" ∨ owner = "" ∨ name = "" then
    ⟨⟨false, none, some "Push failed - GitHub authentication token is required"⟩,
      [], false, none⟩
  else
    let push_url :=
      "https://x-access-token:" ++ token ++ "@github.com/" ++ owner ++ "/" ++ name ++ ".git"
    match env.spawnExn with
    | some m => ⟨⟨false, none, some m⟩, [], true, some push_url⟩
    | none =>
      if env.pushReturncode ≠ 0 then
        ⟨⟨false, none, some "Push failed - authentication may be required"⟩,
          [], true, some push_url⟩
      else
        ⟨⟨true, some branch_name, none⟩,
          [.git_sync "pushed" [("branch", branch_name)]], true, some push_url⟩

/-- Exogenous subprocess outcomes for one `checkout_branch` call, one per git
command the method may run. -/
structure CheckoutEnv where
  fetchExit : Int
  fetchStderr : String
  lsRemoteStdout : String
  checkoutExit : Int
  checkoutStderr : String
  trackExit : Int
  trackStderr : String
  createExit : Int
  createStderr : String
  pullExit : Int
  deriving DecidableEq, Repr

/-- Observable outcome of `checkout_branch`: the returned boolean, the
emissions, and the argument lists of the git commands invoked, in order. -/
structure CheckoutOut where
  success : Bool
  trace : List OutboundEvent
  cmds : List (List String)
  deriving DecidableEq, Repr

/-- Model of `GitOperations.checkout_branch` for working branch `branch` and base branch
`base`. Remote existence of the working branch is decided by the Python
substring test `config.branch in ls_remote.stdout`. On the exists path, a
failed `checkout` falls back to creating a tracking branch, and a successful
checkout (either way) is followed by a best-effort `pull` whose result is
discarded. -/
def checkout_branch (branch base : String) (env : CheckoutEnv) : CheckoutOut :=
  let trace0 := [OutboundEvent.git_sync "checking_out" [("branch", branch)]]
  let fetchCmd := ["fetch", "origin", base]
  if env.fetchExit ≠ 0 then
    ⟨false,
      trace0 ++ [.error ("Failed to fetch base branch: " ++ env.fetchStderr) none],
      [fetchCmd]⟩
  else
    let lsCmd := ["ls-remote", "--heads", "origin", branch]
    if pyInStr branch env.lsRemoteStdout then
      let coCmd := ["checkout", branch]
      if env.checkoutExit = 0 then
        ⟨true,
          trace0 ++ [.git_sync "checked_out" [("branch", branch)]],
          [fetchCmd, lsCmd, coCmd, ["pull", "origin", branch]]⟩
      else
        let trackCmd := ["checkout", "-b", branch, "origin/" ++ branch]
        if env.trackExit = 0 then
          ⟨true,
            trace0 ++ [.git_sync "checked_out" [("branch", branch)]],
            [fetchCmd, lsCmd, coCmd, trackCmd, ["pull", "origin", branch]]⟩
        else
          ⟨false,
            trace0 ++ [.error ("Failed to checkout branch: " ++ env.trackStderr) none],
            [fetchCmd, lsCmd, coCmd, trackCmd]⟩
    else
      let createCmd := ["checkout", "-b", branch, "origin/" ++ base]
      if env.createExit = 0 then
        ⟨true,
          trace0 ++ [.git_sync "checked_out" [("branch", branch)]],
          [fetchCmd, lsCmd, createCmd]⟩
      else
        ⟨false,
          trace0 ++ [.error ("Failed to checkout branch: " ++ env.createStderr) none],
          [fetchCmd, lsCmd, createCmd]⟩

/-- Exogenous outcomes of the three read-only git commands run by `get_status`. -/
structure StatusEnv where
  statusExit : Int
  statusStdout : String
  revParseExit : Int
  revParseStdout : String
  branchExit : Int
  branchStdout : String
  deriving DecidableEq, Repr

/-- The dict returned by `get_status`. -/
structure GitStatus where
  branch : Option String
  sha : Option String
  changed_files : List String
  has_changes : Bool
  deriving DecidableEq, Repr

/-- Characters stripped by Python `str.strip()` with no argument (whitespace). -/
def pyStrip (s : String) : String :=
  String.mk ((s.data.dropWhile Char.isWhitespace).reverse.dropWhile Char.isWhitespace).reverse

/-- Splitting at newline characters. -/
def pySplitlinesAux : List Char → List Char → List String
  | [], acc => [String.mk acc.reverse]
  | c :: rest, acc =>
    if c = '\n' then String.mk acc.reverse :: pySplitlinesAux rest []
    else pySplitlinesAux rest (c :: acc)

/-- Python `str.splitlines` for the newline-separated output of git commands.
(Python drops a trailing empty segment where this keeps it; the difference is
erased by the subsequent strip-and-filter, the only consumer.) -/
def pySplitlines (s : String) : List String :=
  pySplitlinesAux s.data []

/-- Model of `GitOperations.get_status`: the changed-file list is derived from the
captured stdout of `git status --porcelain` alone (its exit code is never
consulted); sha and branch fall back to `None` when their command fails. -/
def get_status (env : StatusEnv) : GitStatus :=
  let changed_files :=
    ((pySplitlines env.statusStdout).map pyStrip).filter (fun l => l ≠ "")
  let current_sha :=
    if env.revParseExit = 0 then some (pyStrip env.revParseStdout) else none
  let current_branch :=
    if env.branchExit = 0 then some (pyStrip env.branchStdout) else none
  { branch := current_branch
    sha := current_sha
    changed_files := changed_files
    has_changes := changed_files.length > 0 }

/-! ## Run-loop lemmas -/

/-- If the stop flag becomes visible at the `k`-th per-event check and the stream
still holds a `k`-th event (and no `error` event terminates the loop earlier),
the loop translates exactly the first `k` events, then stops: it asks the client
to stop, emits the stop `error` event and returns the stopped result. -/
theorem runEvents_stop (mid iterExn : Option String) :
    ∀ (events : List OpenCodeEvent) (k : Nat) (ft : String) (tc : List EventData),
    k < events.length → (∀ e ∈ events.take k, e.type ≠ "error") →
    runEvents mid iterExn events (some k) ft tc =
      ⟨.returned (.err (some "Stopped by user")),
        perEventTrace mid (events.take k) ++ [.error "Execution stopped by user" mid],
        true⟩ := by
  intro events
  induction events with
  | nil => intro k ft tc hk _; simp at hk
  | cons e rest ih =>
    intro k ft tc hk herr
    cases k with
    | zero => simp [runEvents, perEventTrace]
    | succ n =>
      have he : e.type ≠ "error" := herr e (by simp)
      have herr' : ∀ x ∈ rest.take n, x.type ≠ "error" := by
        intro x hx
        exact herr x (by simp [List.take_succ_cons, hx])
      simp only [runEvents, Option.map_some', Nat.succ_sub_one, if_neg he]
      rw [ih n _ _ (Nat.lt_of_succ_lt_succ (by simpa using hk)) herr']
      simp [perEventTrace, List.take_succ_cons, List.append_assoc]

/-- With no stop visible and no `error`-kind event, the loop translates every
event, accumulates the last token content and every `tool_call` payload, and
(when the iterator ends without raising) returns the success result after
emitting `execution_complete`. -/
theorem runEvents_noError_end (mid : Option String) :
    ∀ (events : List OpenCodeEvent) (ft : String) (tc : List EventData),
    (∀ e ∈ events, e.type ≠ "error") →
    runEvents mid none events none ft tc =
      ⟨.returned (.ok (lastTokenFrom ft events) (tc ++ collectedToolCalls events)),
        perEventTrace mid events ++ [.execution_complete true (some "Prompt completed") mid],
        false⟩ := by
  intro events
  induction events with
  | nil =>
    intro ft tc _
    simp [runEvents, lastTokenFrom, collectedToolCalls, perEventTrace]
  | cons e rest ih =>
    intro ft tc h
    have he : e.type ≠ "error" := h e (by simp)
    have hrest : ∀ x ∈ rest, x.type ≠ "error" := fun x hx => h x (by simp [hx])
    simp only [runEvents, Option.map_none', if_neg he]
    rw [ih _ _ hrest]
    by_cases ht : e.type = "tool_call" <;>
      simp [lastTokenFrom, collectedToolCalls, perEventTrace, ht, List.append_assoc]

/-- With no stop visible and no `error`-kind event, if the iterator raises after
its last event, the loop's per-event emissions stand and the exception escapes
the loop (to be caught by `run_prompt_async`'s handler). -/
theorem runEvents_noError_raise (mid : Option String) (m : String) :
    ∀ (events : List OpenCodeEvent) (ft : String) (tc : List EventData),
    (∀ e ∈ events, e.type ≠ "error") →
    runEvents mid (some m) events none ft tc =
      ⟨.raised m, perEventTrace mid events, false⟩ := by
  intro events
  induction events with
  | nil => intro ft tc _; simp [runEvents, perEventTrace]
  | cons e rest ih =>
    intro ft tc h
    have he : e.type ≠ "error" := h e (by simp)
    have hrest : ∀ x ∈ rest, x.type ≠ "error" := fun x hx => h x (by simp [hx])
    simp only [runEvents, Option.map_none', if_neg he]
    rw [ih _ _ hrest]
    simp [perEventTrace, List.append_assoc]

/-- The first `error`-kind event terminates the loop: everything before it is
translated, the `error` emission and the failed `execution_complete` follow,
and nothing after it is consumed. -/
theorem runEvents_firstError (mid iterExn : Option String) :
    ∀ (pre : List OpenCodeEvent) (e : OpenCodeEvent) (post : List OpenCodeEvent)
      (ft : String) (tc : List EventData),
    (∀ x ∈ pre, x.type ≠ "error") → e.type = "error" →
    runEvents mid iterExn (pre ++ e :: post) none ft tc =
      ⟨.returned (.err e.data.error),
        perEventTrace mid pre ++
          [.error (e.data.error.getD "Unknown error") mid,
            .execution_complete false e.data.error mid],
        false⟩ := by
  intro pre
  induction pre with
  | nil =>
    intro e post ft tc _ he
    simp [runEvents, he, processEvent, perEventTrace]
  | cons x rest ih =>
    intro e post ft tc hpre he
    have hx : x.type ≠ "error" := hpre x (by simp)
    have hrest : ∀ y ∈ rest, y.type ≠ "error" := fun y hy => hpre y (by simp [hy])
    simp only [List.cons_append, runEvents, Option.map_none', if_neg hx, List.append_eq]
    rw [ih e post _ _ hrest he]
    simp [perEventTrace, List.append_assoc]

/-! ## Claims about the Execution Session Controller -/

/-- C1 (counterexample): the claim "calling `stop()` before or during consumption
guarantees ... the final result is `{success:false, error:"Stopped by user"}`" is
false on the code: with an empty event stream and the stop flag visible from the
very first check, the loop body never runs, the stop flag is never consulted, and
the run completes with success=true and summary "Prompt completed". -/
theorem C1_stop_claim_counterexample :
    run_prompt_async none none ⟨0, 0⟩ (.ok [] none) (some 0) =
      (.ok "" [], [.execution_complete true (some "Prompt completed") none], false) ∧
    (run_prompt_async none none ⟨0, 0⟩ (.ok [] none) (some 0)).1 ≠
      .err (some "Stopped by user") := by
  exact ⟨rfl, by decide⟩

/-- C1 (amended): if the stop flag becomes visible at the `k`-th per-event check
and the stream still holds a `k`-th event (and no `error`-kind event occupies an
earlier position), then exactly the first `k` events are translated — zero
`token`/`tool_call`/`tool_result` emissions for events at positions ≥ k — a stop
is issued to the Agent Stream Client, an `error` OutboundEvent
"Execution stopped by user" is emitted, and the result is
`{success:false, error:"Stopped by user"}`. If the stream is exhausted before the
flag is observed, the run instead completes normally. -/
theorem C1_stop_before_exhaustion (mid : Option String)
    (author : Option (Option String × Option String)) (gitEnv : GitIdentityEnv)
    (events : List OpenCodeEvent) (iterExn : Option String) (k : Nat)
    (hk : k < events.length)
    (herr : ∀ e ∈ events.take k, e.type ≠ "error") :
    run_prompt_async mid author gitEnv (.ok events iterExn) (some k) =
      (.err (some "Stopped by user"),
        perEventTrace mid (events.take k) ++ [.error "Execution stopped by user" mid],
        true) := by
  have h := runEvents_stop mid iterExn events k "" [] hk herr
  simp [run_prompt_async, h]

/-- C1 witness: a concrete two-event stream with the stop flag visible at the
second check: the first token is translated, then the run stops. -/
theorem C1_stop_before_exhaustion_witness :
    (1 < ([⟨"token", {content := some "a"}⟩, ⟨"token", {content := some "b"}⟩] :
        List OpenCodeEvent).length) ∧
    run_prompt_async none none ⟨0, 0⟩
        (.ok [⟨"token", {content := some "a"}⟩, ⟨"token", {content := some "b"}⟩] none)
        (some 1) =
      (.err (some "Stopped by user"),
        [.token "a" none, .error "Execution stopped by user" none], true) := by
  refine ⟨by decide, ?_⟩
  rw [C1_stop_before_exhaustion none none ⟨0, 0⟩
    [⟨"token", {content := some "a"}⟩, ⟨"token", {content := some "b"}⟩] none 1
    (by decide) (by decide)]
  rfl

/-- C2 (counterexample): the claim "appending to the tracked tool-call list
happens only for pending/running statuses" is false on the code: in
`run_prompt_async`, `tool_calls.append(event.data)` runs for every `tool_call`
event regardless of status, so a single `tool_call` event with status
"completed" still ends up in the returned `tool_calls` list. -/
theorem C2_append_claim_counterexample :
    (run_prompt_async none none ⟨0, 0⟩
        (.ok [⟨"tool_call", {tool := some "t", status := some "completed", output := some "o"}⟩] none) none).1 =
      .ok "" [{tool := some "t", status := some "completed", output := some "o"}] ∧
    (run_prompt_async none none ⟨0, 0⟩
        (.ok [⟨"tool_call", {tool := some "t", status := some "completed", output := some "o"}⟩] none) none).1 ≠
      .ok "" [] := by
  exact ⟨rfl, by decide⟩

/-- C2 (amended): `tool_call` events are translated by status — `pending`/`running`
emit a `tool_call` OutboundEvent with the tool name and arguments, `completed`
emits a `tool_result` with the output and no error, `error` emits a `tool_result`
with no result and the output as the error message — and the event payload is
appended to the tracked tool-call list for every `tool_call` event, regardless of
its status. -/
theorem C2_tool_call_translation (mid iterExn : Option String) (e : OpenCodeEvent)
    (rest : List OpenCodeEvent) (ft : String) (tc : List EventData)
    (ht : e.type = "tool_call") :
    (e.data.status.getD "" = "pending" ∨ e.data.status.getD "" = "running" →
      processEvent mid e =
        [.tool_call (e.data.tool.getD "unknown") (e.data.args.getD []) mid]) ∧
    (e.data.status.getD "" = "completed" →
      processEvent mid e =
        [.tool_result (e.data.tool.getD "unknown") (some (e.data.output.getD "")) none mid]) ∧
    (e.data.status.getD "" = "error" →
      processEvent mid e =
        [.tool_result (e.data.tool.getD "unknown") none (some (e.data.output.getD "")) mid]) ∧
    runEvents mid iterExn (e :: rest) none ft tc =
      ⟨(runEvents mid iterExn rest none ft (tc ++ [e.data])).exit,
        processEvent mid e ++ (runEvents mid iterExn rest none ft (tc ++ [e.data])).trace,
        (runEvents mid iterExn rest none ft (tc ++ [e.data])).clientStopIssued⟩ := by
  refine ⟨?_, ?_, ?_, ?_⟩
  · rintro (h | h) <;> simp [processEvent, ht, h]
  · intro h; simp [processEvent, ht, h]
  · intro h; simp [processEvent, ht, h]
  · simp [runEvents, ht]

/-- C2 witness: a concrete pending-status `tool_call` event, showing the emitted
`tool_call` translation and the unconditional append. -/
theorem C2_tool_call_translation_witness :
    (processEvent none ⟨"tool_call", {tool := some "t", status := some "pending", args := some [("k", "v")]}⟩ =
      [.tool_call "t" [("k", "v")] none]) ∧
    runEvents none none
        [⟨"tool_call", {tool := some "t", status := some "pending", args := some [("k", "v")]}⟩] none "" [] =
      ⟨(runEvents none none [] none ""
          [{tool := some "t", status := some "pending", args := some [("k", "v")]}]).exit,
        processEvent none ⟨"tool_call", {tool := some "t", status := some "pending", args := some [("k", "v")]}⟩ ++
          (runEvents none none [] none ""
            [{tool := some "t", status := some "pending", args := some [("k", "v")]}]).trace,
        (runEvents none none [] none ""
          [{tool := some "t", status := some "pending", args := some [("k", "v")]}]).clientStopIssued⟩ := by
  have h := C2_tool_call_translation none none
    ⟨"tool_call", {tool := some "t", status := some "pending", args := some [("k", "v")]}⟩
    [] "" [] rfl
  exact ⟨h.1 (Or.inl rfl), h.2.2.2⟩

/-- C3: for every finite event sequence with no `error`-kind event, no stop
request and a stream that ends without raising, `submit_prompt` returns
success=true, output equal to the content of the last `token` event (replacement,
not concatenation), and the collected tool-call list; the trace is the per-event
translations followed by `execution_complete` with success=true and summary
"Prompt completed". -/
theorem C3_normal_completion (mid : Option String)
    (author : Option (Option String × Option String)) (gitEnv : GitIdentityEnv)
    (events : List OpenCodeEvent)
    (herr : ∀ e ∈ events, e.type ≠ "error") :
    run_prompt_async mid author gitEnv (.ok events none) none =
      (.ok (lastTokenContent events) (collectedToolCalls events),
        perEventTrace mid events ++
          [.execution_complete true (some "Prompt completed") mid],
        false) := by
  have h := runEvents_noError_end mid events "" [] herr
  simp [run_prompt_async, lastTokenContent, h]

/-- C3 witness: two tokens and one tool call; the output is the last token's
content "ab", not the concatenation "aab". -/
theorem C3_normal_completion_witness :
    run_prompt_async none none ⟨0, 0⟩
        (.ok [⟨"token", {content := some "a"}⟩, ⟨"token", {content := some "ab"}⟩,
          ⟨"tool_call", {tool := some "t", status := some "running"}⟩] none) none =
      (.ok "ab" [{tool := some "t", status := some "running"}],
        [.token "a" none, .token "ab" none, .tool_call "t" [] none,
          .execution_complete true (some "Prompt completed") none],
        false) := by
  rw [C3_normal_completion none none ⟨0, 0⟩
    [⟨"token", {content := some "a"}⟩, ⟨"token", {content := some "ab"}⟩,
      ⟨"tool_call", {tool := some "t", status := some "running"}⟩]
    (by decide)]
  rfl

/-- C4: for every event sequence whose first `error`-kind event sits at position
k (no stop requested), nothing at positions > k is translated or delivered: the
trace is the translations of the first k events, then an `error` OutboundEvent,
then `execution_complete` with success=false and the error as summary, and the
result is `{success:false, error:<the error event's message>}`. -/
theorem C4_error_event_terminates (mid : Option String)
    (author : Option (Option String × Option String)) (gitEnv : GitIdentityEnv)
    (iterExn : Option String) (pre : List OpenCodeEvent) (e : OpenCodeEvent)
    (post : List OpenCodeEvent)
    (hpre : ∀ x ∈ pre, x.type ≠ "error") (he : e.type = "error") :
    run_prompt_async mid author gitEnv (.ok (pre ++ e :: post) iterExn) none =
      (.err e.data.error,
        perEventTrace mid pre ++
          [.error (e.data.error.getD "Unknown error") mid,
            .execution_complete false e.data.error mid],
        false) := by
  have h := runEvents_firstError mid iterExn pre e post "" [] hpre he
  simp [run_prompt_async, h]

/-- C4 witness: a token, then an error event, then a token that is never
delivered. -/
theorem C4_error_event_terminates_witness :
    run_prompt_async none none ⟨0, 0⟩
        (.ok ([⟨"token", {content := some "a"}⟩] ++
          ⟨"error", {error := some "boom"}⟩ :: [⟨"token", {content := some "b"}⟩]) none)
        none =
      (.err (some "boom"),
        [.token "a" none, .error "boom" none,
          .execution_complete false (some "boom") none],
        false) := by
  rw [C4_error_event_terminates none none ⟨0, 0⟩ none
    [⟨"token", {content := some "a"}⟩] ⟨"error", {error := some "boom"}⟩
    [⟨"token", {content := some "b"}⟩] (by decide) rfl]
  rfl

/-- C5: no exception escapes `submit_prompt`. An exception while establishing the
stream yields `{success:false, error:<message>}` plus an `error` and a failed
`execution_complete` emission; an exception raised by the iterator after the
events are consumed is caught the same way (after the per-event emissions); and
the outcome is independent of the git-identity configuration subprocesses'
exit codes (their `CalledProcessError` is caught inside
`_configure_git_identity`, best-effort). -/
theorem C5_no_exception_escapes (mid : Option String)
    (author : Option (Option String × Option String)) (gitEnv : GitIdentityEnv)
    (stopAfter : Option Nat) (m : String) (events : List OpenCodeEvent)
    (herr : ∀ e ∈ events, e.type ≠ "error") :
    run_prompt_async mid author gitEnv (.connectExn m) stopAfter =
      (.err (some m), [.error m mid, .execution_complete false (some m) mid], false) ∧
    run_prompt_async mid author gitEnv (.ok events (some m)) none =
      (.err (some m),
        perEventTrace mid events ++
          [.error m mid, .execution_complete false (some m) mid],
        false) ∧
    (∀ gitEnv' : GitIdentityEnv,
      run_prompt_async mid author gitEnv' (.ok events (some m)) none =
        run_prompt_async mid author gitEnv (.ok events (some m)) none) := by
  refine ⟨rfl, ?_, fun _ => rfl⟩
  have h := runEvents_noError_raise mid m events "" [] herr
  simp [run_prompt_async, h]

/-- C5 witness: a failing git-identity configuration (both `git config` calls
exit 1) together with an iterator exception after one token event. -/
theorem C5_no_exception_escapes_witness :
    run_prompt_async none (some (some "n", some "e")) ⟨1, 1⟩ (.connectExn "boom") none =
      (.err (some "boom"),
        [.error "boom" none, .execution_complete false (some "boom") none], false) ∧
    run_prompt_async none (some (some "n", some "e")) ⟨1, 1⟩
        (.ok [⟨"token", {content := some "a"}⟩] (some "lost connection")) none =
      (.err (some "lost connection"),
        [.token "a" none, .error "lost connection" none,
          .execution_complete false (some "lost connection") none],
        false) := by
  have h := C5_no_exception_escapes none (some (some "n", some "e")) ⟨1, 1⟩ none
    "lost connection" [⟨"token", {content := some "a"}⟩] (by decide)
  have h2 := C5_no_exception_escapes none (some (some "n", some "e")) ⟨1, 1⟩ none
    "boom" [] (by decide)
  exact ⟨h2.1, h.2.1.trans (by rfl)⟩

/-! ## Claims about the Git Synchronization Manager -/

/-- Left-cancellation of string concatenation (used to separate the
tracking-branch command from the create-from-base command). -/
theorem string_append_cancel_left (p a b : String) (h : p ++ a = p ++ b) : a = b := by
  have hd := congrArg String.data h
  simp only [String.data_append] at hd
  exact String.ext (List.append_cancel_left hd)

/-- C6: the error reporting of `push_branch_async` is confidential in the token
and in the push subprocess's stderr: the returned dict and the emitted events are
unchanged when the (non-empty) fresh token or the captured stderr text is
replaced by any other value, and whenever the push subprocess was actually
started and exited non-zero, the returned error is exactly the fixed generic
string "Push failed - authentication may be required". -/
theorem C6_push_confidentiality (cfgOwner cfgName branch : String) (t1 t2 : String)
    (repo_owner repo_name : Option String) (ws : Bool) (envTok spawnExn : Option String)
    (rc : Int) (s1 s2 : String) (h1 : t1 ≠ "") (h2 : t2 ≠ "") :
    ((push_branch_async cfgOwner cfgName branch (some t1) repo_owner repo_name
        ⟨ws, envTok, spawnExn, rc, s1⟩).result =
      (push_branch_async cfgOwner cfgName branch (some t2) repo_owner repo_name
        ⟨ws, envTok, spawnExn, rc, s2⟩).result) ∧
    ((push_branch_async cfgOwner cfgName branch (some t1) repo_owner repo_name
        ⟨ws, envTok, spawnExn, rc, s1⟩).trace =
      (push_branch_async cfgOwner cfgName branch (some t2) repo_owner repo_name
        ⟨ws, envTok, spawnExn, rc, s2⟩).trace) ∧
    ((push_branch_async cfgOwner cfgName branch (some t1) repo_owner repo_name
        ⟨ws, envTok, spawnExn, rc, s1⟩).pushInvoked = true → spawnExn = none → rc ≠ 0 →
      (push_branch_async cfgOwner cfgName branch (some t1) repo_owner repo_name
        ⟨ws, envTok, spawnExn, rc, s1⟩).result.error =
        some "Push failed - authentication may be required") := by
  have e1 : resolve_github_token (some t1) envTok = ⟨t1, "fresh from command"⟩ := by
    simp [resolve_github_token, h1]
  have e2 : resolve_github_token (some t2) envTok = ⟨t2, "fresh from command"⟩ := by
    simp [resolve_github_token, h2]
  cases ws <;> cases spawnExn <;> by_cases hrc : rc = 0 <;>
    by_cases ho : pyOrStr repo_owner cfgOwner = "" <;>
    by_cases hn : pyOrStr repo_name cfgName = "" <;>
    simp_all [push_branch_async, e1, e2, h1, h2]

/-- C6 witness: a failed push (exit 1) with two different tokens and two
different stderr texts: same result, same trace, and the fixed generic error. -/
theorem C6_push_confidentiality_witness :
    ("tokA" ≠ "") ∧
    ((push_branch_async "o" "n" "b" (some "tokA") none none
        ⟨true, none, none, 1, "fatal: secretA"⟩).result =
      (push_branch_async "o" "n" "b" (some "tokB") none none
        ⟨true, none, none, 1, "fatal: secretB"⟩).result) ∧
    ((push_branch_async "o" "n" "b" (some "tokA") none none
        ⟨true, none, none, 1, "fatal: secretA"⟩).result.error =
      some "Push failed - authentication may be required") := by
  have h := C6_push_confidentiality "o" "n" "b" "tokA" "tokB" none none true none none
    1 "fatal: secretA" "fatal: secretB" (by decide) (by decide)
  exact ⟨by decide, h.1, h.2.2 (by decide) rfl (by decide)⟩

/-- C7 (counterexample): `resolve_github_token` with a fresh token "X" returns
the provenance description "fresh from command", not the tag "fresh" stated by
the claim. -/
theorem C7_fresh_tag_counterexample :
    resolve_github_token (some "X") (some "E") = ⟨"X", "fresh from command"⟩ ∧
    resolve_github_token (some "X") (some "E") ≠ ⟨"X", "fresh"⟩ := by
  exact ⟨rfl, by decide⟩

/-- C7 (amended): strict priority with Python truthiness and the source's
provenance strings: a non-empty fresh token always wins, tagged
"fresh from command"; otherwise a non-empty environment value wins, tagged
"from env"; otherwise the result is `("", "none")`. An explicitly supplied but
empty fresh token (or empty environment value) is treated as absent. -/
theorem C7_resolution_priority (fresh env_token : Option String) :
    (∀ t, fresh = some t → t ≠ "" →
      resolve_github_token fresh env_token = ⟨t, "fresh from command"⟩) ∧
    (fresh.getD "" = "" → ∀ v, env_token = some v → v ≠ "" →
      resolve_github_token fresh env_token = ⟨v, "from env"⟩) ∧
    (fresh.getD "" = "" → env_token.getD "" = "" →
      resolve_github_token fresh env_token = ⟨"", "none"⟩) := by
  refine ⟨?_, ?_, ?_⟩
  · intro t ht hne
    subst ht
    simp [resolve_github_token, hne]
  · intro hf v hv hne
    subst hv
    simp [resolve_github_token, hf, hne]
  · intro hf he
    simp [resolve_github_token, hf, he]

/-- C7 witness: the three concrete scenarios of the claim. -/
theorem C7_resolution_priority_witness :
    resolve_github_token (some "X") (some "E") = ⟨"X", "fresh from command"⟩ ∧
    resolve_github_token none (some "E") = ⟨"E", "from env"⟩ ∧
    resolve_github_token none none = ⟨"", "none"⟩ := by
  exact ⟨(C7_resolution_priority (some "X") (some "E")).1 "X" rfl (by decide),
    (C7_resolution_priority none (some "E")).2.1 rfl "E" rfl (by decide),
    (C7_resolution_priority none none).2.2 rfl rfl⟩

/-- C8 (counterexample): the claim "missing token ⟹ failure with a generic
authentication-required message" is false when the workspace directory is also
missing: that check comes first, and the returned error is "No repository found"
(still a failure with no subprocess started, but a different message). -/
theorem C8_missing_workspace_counterexample :
    (resolve_github_token none none).token = "" ∧
    (push_branch_async "o" "n" "b" none none none ⟨false, none, none, 0, ""⟩).result.error =
      some "No repository found" ∧
    (push_branch_async "o" "n" "b" none none none ⟨false, none, none, 0, ""⟩).result.error ≠
      some "Push failed - GitHub authentication token is required" := by
  exact ⟨rfl, rfl, by decide⟩

/-- C8 (amended): whenever the resolved token, the effective owner or the
effective repository name is empty, `push_branch_async` fails without starting
any git subprocess; the error is the generic authentication-required message
when the workspace directory exists, and "No repository found" (checked first)
when it does not. -/
theorem C8_fail_fast_without_subprocess (cfgOwner cfgName branch : String)
    (github_token repo_owner repo_name : Option String) (env : PushEnv)
    (h : (resolve_github_token github_token env.envToken).token = "" ∨
      pyOrStr repo_owner cfgOwner = "" ∨ pyOrStr repo_name cfgName = "") :
    (push_branch_async cfgOwner cfgName branch github_token repo_owner repo_name
      env).result.success = false ∧
    (push_branch_async cfgOwner cfgName branch github_token repo_owner repo_name
      env).pushInvoked = false ∧
    (env.workspaceExists = true →
      (push_branch_async cfgOwner cfgName branch github_token repo_owner repo_name
        env).result.error = some "Push failed - GitHub authentication token is required") ∧
    (env.workspaceExists = false →
      (push_branch_async cfgOwner cfgName branch github_token repo_owner repo_name
        env).result.error = some "No repository found") := by
  obtain ⟨ws, envTok, spawnExn, rc, s⟩ := env
  cases ws <;> simp_all [push_branch_async]

/-- C8 witness: workspace present, no token anywhere: failure with the
authentication-required message and no subprocess. -/
theorem C8_fail_fast_without_subprocess_witness :
    ((resolve_github_token none none).token = "" ∨ pyOrStr none "o" = "" ∨
      pyOrStr none "n" = "") ∧
    (push_branch_async "o" "n" "b" none none none
      ⟨true, none, none, 0, ""⟩).result.success = false ∧
    (push_branch_async "o" "n" "b" none none none
      ⟨true, none, none, 0, ""⟩).pushInvoked = false ∧
    (push_branch_async "o" "n" "b" none none none
      ⟨true, none, none, 0, ""⟩).result.error =
      some "Push failed - GitHub authentication token is required" := by
  have h := C8_fail_fast_without_subprocess "o" "n" "b" none none none
    ⟨true, none, none, 0, ""⟩ (Or.inl rfl)
  exact ⟨Or.inl rfl, h.1, h.2.1, h.2.2.1 rfl⟩

/-- C9: `checkout_branch` decides remote existence of the working branch by the
Python substring test `branch in ls_remote_stdout`; whenever the fetch succeeds
and the branch name occurs anywhere in the listing — even only inside another
ref's name — the exists path is taken: `git checkout <branch>` is invoked and
the create-from-base command `git checkout -b <branch> origin/<base>` never is. -/
theorem C9_substring_decides_existence (branch base : String) (env : CheckoutEnv)
    (hfetch : env.fetchExit = 0) (hsub : pyInStr branch env.lsRemoteStdout = true)
    (hne : branch ≠ base) :
    ["checkout", branch] ∈ (checkout_branch branch base env).cmds ∧
    ["checkout", "-b", branch, "origin/" ++ base] ∉
      (checkout_branch branch base env).cmds := by
  have hob : "origin/" ++ branch ≠ "origin/" ++ base := fun hh =>
    hne (string_append_cancel_left "origin/" branch base hh)
  have hob' : "origin/" ++ base ≠ "origin/" ++ branch := fun hh => hob hh.symm
  unfold checkout_branch
  by_cases hc : env.checkoutExit = 0 <;> by_cases htr : env.trackExit = 0 <;>
    simp_all [pyInStr]

/-- C9 witness: working branch "x", remote listing containing only
"refs/heads/x-foo": the exists path is taken (and, with both checkout attempts
failing, the operation fails instead of creating "x" from the base branch). -/
theorem C9_substring_decides_existence_witness :
    ((⟨0, "", "abc\trefs/heads/x-foo\n", 1, "", 1, "err", 0, "", 0⟩ :
        CheckoutEnv).fetchExit = 0) ∧
    (pyInStr "x" "abc\trefs/heads/x-foo\n" = true) ∧
    ["checkout", "x"] ∈
      (checkout_branch "x" "main" ⟨0, "", "abc\trefs/heads/x-foo\n", 1, "", 1, "err", 0, "", 0⟩).cmds ∧
    ["checkout", "-b", "x", "origin/" ++ "main"] ∉
      (checkout_branch "x" "main" ⟨0, "", "abc\trefs/heads/x-foo\n", 1, "", 1, "err", 0, "", 0⟩).cmds := by
  have h := C9_substring_decides_existence "x" "main"
    ⟨0, "", "abc\trefs/heads/x-foo\n", 1, "", 1, "err", 0, "", 0⟩
    rfl (by decide) (by decide)
  exact ⟨rfl, by decide, h.1, h.2⟩

/-- C10: `get_status` reports `has_changes` exactly when its `changed_files`
list is non-empty; the exit code of `git status --porcelain` is never consulted
(the whole result is invariant under changing it), and when that command fails
with empty captured output the result reports `has_changes = false` rather than
an error. -/
theorem C10_status_ignores_exit (env : StatusEnv) (e1 e2 : Int) :
    (get_status env).has_changes = !(get_status env).changed_files.isEmpty ∧
    get_status {env with statusExit := e1} = get_status {env with statusExit := e2} ∧
    (get_status {env with statusStdout := ""}).has_changes = false := by
  refine ⟨?_, rfl, rfl⟩
  unfold get_status
  cases h : ((pySplitlines env.statusStdout).map pyStrip).filter (fun l => l ≠ "") <;>
    simp [h]

end SandboxModel
